import Mathlib

/-!
Verification of the co-change collection pipeline (`collect.py`).

The script iterates over a CSV registry of projects and, for each project,
runs five stages in order: clone (fetch), checkout (pin), dump_deps
(extract-dependencies), dump_cochange_db (initialize-cochange-store) and
add_deps_to_db (merge-dependencies).  Three of the stages are guarded by
existence checks on artifact paths.

The embedding below models:
  * filesystem paths as lists of components (`FsPath`), the filesystem as
    the list of existing paths (`FS`);
  * each `subprocess.run` invocation as a trace event carrying the full
    argument list and working directory;
  * the external world as an `Env` oracle giving, per invocation, the exit
    status, the captured standard output, and whether the tool created its
    designated output path (clone creates the working copy, the extractor
    creates the dependency artifact, the dump creates the db file;
    checkout, rev-list and add-deps mutate content in place and create
    nothing — the black-box contracts of the external tools);
  * Python exceptions (a missing cwd at subprocess launch, a
    `check_returncode` failure, registry-load failures) as a sticky error
    field in the run state: once set, every subsequent stage is a no-op,
    mirroring an uncaught exception that aborts the process.
-/

/-- A filesystem path, as its list of components. -/
abbrev FsPath := List String

/-- The filesystem: the list of paths that exist.  Creation prepends. -/
abbrev FS := List FsPath

/-- Component-wise path equality. -/
def pathEq : FsPath → FsPath → Bool
  | [], [] => true
  | a :: as, b :: bs => a == b && pathEq as bs
  | _, _ => false

/-- `Path.exists()`: membership of a path in the filesystem. -/
def pathExists : FS → FsPath → Bool
  | [], _ => false
  | q :: fs, p => pathEq p q || pathExists fs p

/-- Creation of a path (file or directory). -/
def touch (fs : FS) (p : FsPath) : FS := p :: fs

/-- `str()` of a path: components joined by `/`. -/
def pathStr : FsPath → String
  | [] => ""
  | [c] => c
  | c :: cs => c ++ "/" ++ pathStr cs

/-- A project descriptor, as in the `Project` named tuple. -/
structure Project where
  name : String
  url : String
  rev : String
deriving DecidableEq

/-- The five pipeline stages, in their fixed order. -/
inductive Stage where
  | fetch
  | pin
  | extractDeps
  | initStore
  | mergeDeps
deriving DecidableEq

/-- Observable events of a run: a per-stage progress report (with its
skipped flag), a `mkdir -p`, and a subprocess invocation with its full
argument list and working directory. -/
inductive Event where
  | note (st : Stage) (name : String) (skipped : Bool)
  | mkdirp (path : FsPath)
  | call (args : List String) (cwd : Option FsPath)
deriving DecidableEq

/-- Errors that abort the Python process: a missing registry file, a row
with fewer than three fields (`IndexError`), a missing working directory at
subprocess launch (`FileNotFoundError` from `subprocess.run`), and
`CalledProcessError` from `check_returncode`. -/
inductive RunErr where
  | fileNotFound
  | malformedRow (row : List String)
  | osError (cwd : FsPath)
  | calledProcessError (args : List String) (rc : Int)
deriving DecidableEq

/-- The run state: the filesystem, the event trace, and the pending
uncaught exception (none while the run is alive). -/
structure St where
  fs : FS
  trace : List Event
  err : Option RunErr
deriving DecidableEq

/-- The external world: per invocation (argument list, working directory),
the exit status, the captured standard output, and whether the tool
created its designated output path. -/
structure Env where
  rc : List String → Option FsPath → Int
  out : List String → Option FsPath → String
  created : List String → Option FsPath → Bool

/-- `get_project_path`: `Path(PROJECTS_DIR, project_name)`. -/
def get_project_path (project_name : String) : FsPath :=
  ["projects", project_name]

/-- `get_db_path`: `Path(DBS_DIR, f"{project_name}.db")`. -/
def get_db_path (project_name : String) : FsPath :=
  ["dbs", project_name ++ ".db"]

/-- `get_dep_path`: `Path(DEPS_DIR, f"{project_name}-deps-structure.json")`. -/
def get_dep_path (project_name : String) : FsPath :=
  ["deps", project_name ++ "-deps-structure.json"]

/-- The project built from one csv row: `Project(r[0], r[1], r[2])`. -/
def projOfRow (r : List String) : Project :=
  ⟨r.getD 0 "", r.getD 1 "", r.getD 2 ""⟩

/-- The list comprehension in `load_projects`: builds a `Project` per row,
raising `IndexError` on the first row with fewer than three fields. -/
def loadRows : List (List String) → Except RunErr (List Project)
  | [] => .ok []
  | r :: rs =>
    match r with
    | a :: b :: c :: _ => (loadRows rs).map (fun ps => ⟨a, b, c⟩ :: ps)
    | _ => .error (.malformedRow r)

/-- `load_projects`: opening the csv file (absent ⇒ `FileNotFoundError`)
and parsing its rows in order. -/
def load_projects : Option (List (List String)) → Except RunErr (List Project)
  | none => .error .fileNotFound
  | some rows => loadRows rows

/-- Argument list of the `git clone` invocation. -/
def cloneArgs (p : Project) : List String :=
  ["git", "clone", p.url, pathStr (get_project_path p.name)]

/-- Argument list of the `git checkout` invocation. -/
def checkoutArgs (rev : String) : List String :=
  ["git", "-c", "advice.detachedHead=false", "checkout", rev]

/-- Argument list of the `git rev-list` invocation. -/
def revListArgs (rev : String) : List String :=
  ["git", "rev-list", "-n", "1", rev]

/-- Argument list of the dependency-extractor invocation (`dump_deps`). -/
def extractArgs (name : String) : List String :=
  ["java", "-Xmx12G", "-jar", "depends.jar", "java", ".",
   name ++ "-deps", "--dir=deps", "--detail", "--output-self-deps",
   "--granularity=structure", "--namepattern=unix", "--strip-leading-path"]

/-- Argument list of the `cochange-tool dump` invocation. -/
def dumpArgs (p : Project) : List String :=
  ["cochange-tool", "dump", "--all", "--db", pathStr (get_db_path p.name),
   "--repo", pathStr (get_project_path p.name), p.rev]

/-- Argument list of the `cochange-tool add-deps` invocation. -/
def addDepsArgs (name commit : String) : List String :=
  ["cochange-tool", "add-deps", "--db", pathStr (get_db_path name),
   "--commit", commit, "--dep-file", pathStr (get_dep_path name)]

/-- `clone`: skip when the working copy exists, otherwise invoke
`git clone` (no working directory, so the launch cannot fail); the working
copy exists afterwards iff the tool created it. -/
def clone (env : Env) (p : Project) (s : St) : St :=
  if s.err.isSome then s else
  let pp := get_project_path p.name
  if pathExists s.fs pp then
    { s with trace := s.trace ++ [.note .fetch p.name true] }
  else
    let args := cloneArgs p
    let fs' := if env.created args none then touch s.fs pp else s.fs
    { s with fs := fs'
             trace := s.trace ++ [.note .fetch p.name false, .call args none] }

/-- `checkout`: always prints, then invokes `git checkout` with the working
copy as cwd; a missing cwd raises at launch.  The exit status is never
inspected and the tool mutates the tree in place. -/
def checkout (env : Env) (p : Project) (s : St) : St :=
  if s.err.isSome then s else
  let cwd := get_project_path p.name
  let s1 : St := { s with trace := s.trace ++ [.note .pin p.name false] }
  if pathExists s1.fs cwd then
    { s1 with trace := s1.trace ++ [.call (checkoutArgs p.rev) (some cwd)] }
  else
    { s1 with err := some (.osError cwd) }

/-- `dereference_rev`: runs `git rev-list -n 1 <rev>` in the working copy,
checks the return code, and returns the stripped standard output.  Returns
`none` and records the pending exception on failure. -/
def dereference_rev (env : Env) (p : Project) (s : St) : Option String × St :=
  if s.err.isSome then (none, s) else
  let cwd := get_project_path p.name
  if pathExists s.fs cwd then
    let args := revListArgs p.rev
    let s1 := { s with trace := s.trace ++ [.call args (some cwd)] }
    let rc := env.rc args (some cwd)
    if rc = 0 then
      (some ((env.out args (some cwd)).trim), s1)
    else
      (none, { s1 with err := some (.calledProcessError args rc) })
  else
    (none, { s with err := some (.osError cwd) })

/-- `dump_deps`: skip when the dependency artifact exists; otherwise make
the deps directory and invoke the extractor with the working copy as cwd.
The artifact exists afterwards iff the tool created it. -/
def dump_deps (env : Env) (p : Project) (s : St) : St :=
  if s.err.isSome then s else
  if pathExists s.fs (get_dep_path p.name) then
    { s with trace := s.trace ++ [.note .extractDeps p.name true] }
  else
    let cwd := get_project_path p.name
    let s1 : St := { s with fs := touch s.fs ["deps"]
                            trace := s.trace ++ [.note .extractDeps p.name false, .mkdirp ["deps"]] }
    if pathExists s1.fs cwd then
      let args := extractArgs p.name
      let fs' := if env.created args (some cwd) then touch s1.fs (get_dep_path p.name)
                 else s1.fs
      { s1 with fs := fs', trace := s1.trace ++ [.call args (some cwd)] }
    else
      { s1 with err := some (.osError cwd) }

/-- `dump_cochange_db`: skip when the db file exists; otherwise make its
parent directory and invoke `cochange-tool dump` (no cwd).  The db file
exists afterwards iff the tool created it. -/
def dump_cochange_db (env : Env) (p : Project) (s : St) : St :=
  if s.err.isSome then s else
  let db := get_db_path p.name
  if pathExists s.fs db then
    { s with trace := s.trace ++ [.note .initStore p.name true] }
  else
    let s1 : St := { s with fs := touch s.fs ["dbs"]
                            trace := s.trace ++ [.note .initStore p.name false, .mkdirp ["dbs"]] }
    let args := dumpArgs p
    let fs' := if env.created args none then touch s1.fs db else s1.fs
    { s1 with fs := fs', trace := s1.trace ++ [.call args none] }

/-- `add_deps_to_db`: unguarded; prints, makes the db parent directory,
resolves the revision (which may raise), then invokes
`cochange-tool add-deps` (no cwd), whose exit status is never inspected. -/
def add_deps_to_db (env : Env) (p : Project) (s : St) : St :=
  if s.err.isSome then s else
  let s1 : St := { s with fs := touch s.fs ["dbs"]
                          trace := s.trace ++ [.note .mergeDeps p.name false, .mkdirp ["dbs"]] }
  match dereference_rev env p s1 with
  | (some commit, s2) =>
      { s2 with trace := s2.trace ++ [.call (addDepsArgs p.name commit) none] }
  | (none, s2) => s2

/-- The body of the main loop for a single project: the five stages in
their fixed order. -/
def run_stages (env : Env) (p : Project) (s : St) : St :=
  add_deps_to_db env p
    (dump_cochange_db env p
      (dump_deps env p
        (checkout env p
          (clone env p s))))

/-- The main loop over the loaded project list. -/
def runAll (env : Env) : List Project → St → St
  | [], s => s
  | p :: ps, s => runAll env ps (run_stages env p s)

/-- The whole program: load the registry, then iterate.  A load failure
aborts before any stage executes. -/
def runMain (env : Env) (file : Option (List (List String))) (fs0 : FS) : St :=
  match load_projects file with
  | .error e => { fs := fs0, trace := [], err := some e }
  | .ok ps => runAll env ps { fs := fs0, trace := [], err := none }

/-- Does an argument list begin with the given words? -/
def headIs (args keys : List String) : Bool :=
  args.take keys.length == keys

/-- Recognizer for `git clone` invocations in the trace. -/
def isCloneCall : Event → Bool
  | .call args _ => headIs args ["git", "clone"]
  | _ => false

/-- Recognizer for `git checkout` invocations in the trace. -/
def isCheckoutCall : Event → Bool
  | .call args _ => headIs args ["git", "-c"]
  | _ => false

/-- Recognizer for `git rev-list` invocations in the trace. -/
def isRevListCall : Event → Bool
  | .call args _ => headIs args ["git", "rev-list"]
  | _ => false

/-- Recognizer for extractor invocations in the trace. -/
def isExtractCall : Event → Bool
  | .call args _ => headIs args ["java"]
  | _ => false

/-- Recognizer for `cochange-tool dump` invocations in the trace. -/
def isDumpCall : Event → Bool
  | .call args _ => headIs args ["cochange-tool", "dump"]
  | _ => false

/-- Recognizer for `cochange-tool add-deps` invocations in the trace. -/
def isAddDepsCall : Event → Bool
  | .call args _ => headIs args ["cochange-tool", "add-deps"]
  | _ => false

/-- The per-stage progress reports of a trace, in order. -/
def stageNotes : List Event → List (Stage × String)
  | [] => []
  | .note st n _ :: es => (st, n) :: stageNotes es
  | .mkdirp _ :: es => stageNotes es
  | .call _ _ :: es => stageNotes es

/-- The five stages in execution order. -/
def stageList : List Stage :=
  [.fetch, .pin, .extractDeps, .initStore, .mergeDeps]

/-- The expected stage-report sequence for a project list. -/
def noteSeq (ps : List Project) : List (Stage × String) :=
  ps.flatMap (fun p => stageList.map (fun st => (st, p.name)))

/-- Filesystem growth: every path existing in `fs` still exists in `fs2`.
The pipeline only ever creates paths, never deletes them. -/
def FsLe (fs fs2 : FS) : Prop :=
  ∀ q, pathExists fs q = true → pathExists fs2 q = true

/-- A fully successful external world: every tool exits 0, prints a fixed
commit id, and creates its designated output. -/
def envOk : Env :=
  { rc := fun _ _ => 0,
    out := fun _ _ => "c0ffee\n",
    created := fun _ _ => true }

/-- An external world in which every tool exits 1 and creates nothing. -/
def envFail : Env :=
  { rc := fun _ _ => 1,
    out := fun _ _ => "",
    created := fun _ _ => false }

/-! ### Path lemmas -/

theorem pathEq_refl (p : FsPath) : pathEq p p = true := by
  induction p with
  | nil => rfl
  | cons a as ih => simp [pathEq, ih]

theorem pathEq_of_length_ne {p q : FsPath} (h : p.length ≠ q.length) :
    pathEq p q = false := by
  induction p generalizing q with
  | nil =>
    cases q with
    | nil => exact absurd rfl h
    | cons b bs => rfl
  | cons a as ih =>
    cases q with
    | nil => rfl
    | cons b bs =>
      have hlen : as.length ≠ bs.length := by
        intro hh
        exact h (by simp [hh])
      simp [pathEq, ih hlen]

theorem pathExists_touch (fs : FS) (d q : FsPath) :
    pathExists (touch fs d) q = (pathEq q d || pathExists fs q) := rfl

theorem pathExists_mono {fs : FS} {q : FsPath} (d : FsPath)
    (h : pathExists fs q = true) : pathExists (touch fs d) q = true := by
  simp [pathExists_touch, h]

theorem fsLe_refl (fs : FS) : FsLe fs fs := fun _ h => h

theorem fsLe_trans {a b c : FS} (h1 : FsLe a b) (h2 : FsLe b c) : FsLe a c :=
  fun q h => h2 q (h1 q h)

theorem fsLe_touch (fs : FS) (d : FsPath) : FsLe fs (touch fs d) :=
  fun _ h => pathExists_mono d h

theorem fsLe_touch_if (fs : FS) (d : FsPath) (b : Bool) :
    FsLe fs (if b then touch fs d else fs) := by
  cases b
  · exact fsLe_refl fs
  · exact fsLe_touch fs d

/-! ### Trace recognizer evaluation -/

@[simp] theorem cloneCall_note (st : Stage) (n : String) (b : Bool) :
    isCloneCall (.note st n b) = false := rfl

@[simp] theorem cloneCall_mkdirp (d : FsPath) : isCloneCall (.mkdirp d) = false := rfl

@[simp] theorem cloneCall_clone (p : Project) (c : Option FsPath) :
    isCloneCall (.call (cloneArgs p) c) = true := rfl

@[simp] theorem cloneCall_checkout (r : String) (c : Option FsPath) :
    isCloneCall (.call (checkoutArgs r) c) = false := rfl

@[simp] theorem cloneCall_revList (r : String) (c : Option FsPath) :
    isCloneCall (.call (revListArgs r) c) = false := rfl

@[simp] theorem cloneCall_extract (n : String) (c : Option FsPath) :
    isCloneCall (.call (extractArgs n) c) = false := rfl

@[simp] theorem cloneCall_dump (p : Project) (c : Option FsPath) :
    isCloneCall (.call (dumpArgs p) c) = false := rfl

@[simp] theorem cloneCall_addDeps (n m : String) (c : Option FsPath) :
    isCloneCall (.call (addDepsArgs n m) c) = false := rfl

@[simp] theorem checkoutCall_note (st : Stage) (n : String) (b : Bool) :
    isCheckoutCall (.note st n b) = false := rfl

@[simp] theorem checkoutCall_mkdirp (d : FsPath) : isCheckoutCall (.mkdirp d) = false := rfl

@[simp] theorem checkoutCall_clone (p : Project) (c : Option FsPath) :
    isCheckoutCall (.call (cloneArgs p) c) = false := rfl

@[simp] theorem checkoutCall_checkout (r : String) (c : Option FsPath) :
    isCheckoutCall (.call (checkoutArgs r) c) = true := rfl

@[simp] theorem checkoutCall_revList (r : String) (c : Option FsPath) :
    isCheckoutCall (.call (revListArgs r) c) = false := rfl

@[simp] theorem checkoutCall_extract (n : String) (c : Option FsPath) :
    isCheckoutCall (.call (extractArgs n) c) = false := rfl

@[simp] theorem checkoutCall_dump (p : Project) (c : Option FsPath) :
    isCheckoutCall (.call (dumpArgs p) c) = false := rfl

@[simp] theorem checkoutCall_addDeps (n m : String) (c : Option FsPath) :
    isCheckoutCall (.call (addDepsArgs n m) c) = false := rfl

@[simp] theorem extractCall_note (st : Stage) (n : String) (b : Bool) :
    isExtractCall (.note st n b) = false := rfl

@[simp] theorem extractCall_mkdirp (d : FsPath) : isExtractCall (.mkdirp d) = false := rfl

@[simp] theorem extractCall_clone (p : Project) (c : Option FsPath) :
    isExtractCall (.call (cloneArgs p) c) = false := rfl

@[simp] theorem extractCall_checkout (r : String) (c : Option FsPath) :
    isExtractCall (.call (checkoutArgs r) c) = false := rfl

@[simp] theorem extractCall_revList (r : String) (c : Option FsPath) :
    isExtractCall (.call (revListArgs r) c) = false := rfl

@[simp] theorem extractCall_extract (n : String) (c : Option FsPath) :
    isExtractCall (.call (extractArgs n) c) = true := rfl

@[simp] theorem extractCall_dump (p : Project) (c : Option FsPath) :
    isExtractCall (.call (dumpArgs p) c) = false := rfl

@[simp] theorem extractCall_addDeps (n m : String) (c : Option FsPath) :
    isExtractCall (.call (addDepsArgs n m) c) = false := rfl

@[simp] theorem dumpCall_note (st : Stage) (n : String) (b : Bool) :
    isDumpCall (.note st n b) = false := rfl

@[simp] theorem dumpCall_mkdirp (d : FsPath) : isDumpCall (.mkdirp d) = false := rfl

@[simp] theorem dumpCall_clone (p : Project) (c : Option FsPath) :
    isDumpCall (.call (cloneArgs p) c) = false := rfl

@[simp] theorem dumpCall_checkout (r : String) (c : Option FsPath) :
    isDumpCall (.call (checkoutArgs r) c) = false := rfl

@[simp] theorem dumpCall_revList (r : String) (c : Option FsPath) :
    isDumpCall (.call (revListArgs r) c) = false := rfl

@[simp] theorem dumpCall_extract (n : String) (c : Option FsPath) :
    isDumpCall (.call (extractArgs n) c) = false := rfl

@[simp] theorem dumpCall_dump (p : Project) (c : Option FsPath) :
    isDumpCall (.call (dumpArgs p) c) = true := rfl

@[simp] theorem dumpCall_addDeps (n m : String) (c : Option FsPath) :
    isDumpCall (.call (addDepsArgs n m) c) = false := rfl

@[simp] theorem addDepsCall_note (st : Stage) (n : String) (b : Bool) :
    isAddDepsCall (.note st n b) = false := rfl

@[simp] theorem addDepsCall_mkdirp (d : FsPath) : isAddDepsCall (.mkdirp d) = false := rfl

@[simp] theorem addDepsCall_clone (p : Project) (c : Option FsPath) :
    isAddDepsCall (.call (cloneArgs p) c) = false := rfl

@[simp] theorem addDepsCall_checkout (r : String) (c : Option FsPath) :
    isAddDepsCall (.call (checkoutArgs r) c) = false := rfl

@[simp] theorem addDepsCall_revList (r : String) (c : Option FsPath) :
    isAddDepsCall (.call (revListArgs r) c) = false := rfl

@[simp] theorem addDepsCall_extract (n : String) (c : Option FsPath) :
    isAddDepsCall (.call (extractArgs n) c) = false := rfl

@[simp] theorem addDepsCall_dump (p : Project) (c : Option FsPath) :
    isAddDepsCall (.call (dumpArgs p) c) = false := rfl

@[simp] theorem addDepsCall_addDeps (n m : String) (c : Option FsPath) :
    isAddDepsCall (.call (addDepsArgs n m) c) = true := rfl

/-! ### Stage-report extraction -/

@[simp] theorem stageNotes_nil : stageNotes [] = [] := rfl

@[simp] theorem stageNotes_note (st : Stage) (n : String) (b : Bool) (es : List Event) :
    stageNotes (.note st n b :: es) = (st, n) :: stageNotes es := rfl

@[simp] theorem stageNotes_mkdirp (d : FsPath) (es : List Event) :
    stageNotes (.mkdirp d :: es) = stageNotes es := rfl

@[simp] theorem stageNotes_call (a : List String) (c : Option FsPath) (es : List Event) :
    stageNotes (.call a c :: es) = stageNotes es := rfl

@[simp] theorem stageNotes_append (t u : List Event) :
    stageNotes (t ++ u) = stageNotes t ++ stageNotes u := by
  induction t with
  | nil => rfl
  | cons e es ih => cases e <;> simp [ih]

/-! ### Exception propagation: a set error freezes every later stage -/

theorem clone_frozen (env : Env) (p : Project) {s : St} (h : s.err.isSome = true) :
    clone env p s = s := by
  simp [clone, h]

theorem checkout_frozen (env : Env) (p : Project) {s : St} (h : s.err.isSome = true) :
    checkout env p s = s := by
  simp [checkout, h]

theorem dereference_rev_frozen (env : Env) (p : Project) {s : St} (h : s.err.isSome = true) :
    dereference_rev env p s = (none, s) := by
  simp [dereference_rev, h]

theorem dump_deps_frozen (env : Env) (p : Project) {s : St} (h : s.err.isSome = true) :
    dump_deps env p s = s := by
  simp [dump_deps, h]

theorem dump_cochange_db_frozen (env : Env) (p : Project) {s : St} (h : s.err.isSome = true) :
    dump_cochange_db env p s = s := by
  simp [dump_cochange_db, h]

theorem add_deps_to_db_frozen (env : Env) (p : Project) {s : St} (h : s.err.isSome = true) :
    add_deps_to_db env p s = s := by
  simp [add_deps_to_db, h]

theorem run_stages_frozen (env : Env) (p : Project) {s : St} (h : s.err.isSome = true) :
    run_stages env p s = s := by
  simp [run_stages, clone_frozen env p h, checkout_frozen env p h, dump_deps_frozen env p h,
        dump_cochange_db_frozen env p h, add_deps_to_db_frozen env p h]

theorem runAll_frozen (env : Env) (ps : List Project) {s : St} (h : s.err.isSome = true) :
    runAll env ps s = s := by
  induction ps with
  | nil => rfl
  | cons p ps ih => simp [runAll, run_stages_frozen env p h, ih]

/-! ### Error extraction: an error-free result means an error-free input -/

theorem err_none_clone {env : Env} {p : Project} {s : St}
    (h : (clone env p s).err = none) : s.err = none := by
  cases hs : s.err with
  | none => rfl
  | some e =>
    rw [clone_frozen env p (by simp [hs])] at h
    rw [hs] at h
    exact h

theorem err_none_checkout {env : Env} {p : Project} {s : St}
    (h : (checkout env p s).err = none) : s.err = none := by
  cases hs : s.err with
  | none => rfl
  | some e =>
    rw [checkout_frozen env p (by simp [hs])] at h
    rw [hs] at h
    exact h

theorem err_none_dump_deps {env : Env} {p : Project} {s : St}
    (h : (dump_deps env p s).err = none) : s.err = none := by
  cases hs : s.err with
  | none => rfl
  | some e =>
    rw [dump_deps_frozen env p (by simp [hs])] at h
    rw [hs] at h
    exact h

theorem err_none_dump_cochange_db {env : Env} {p : Project} {s : St}
    (h : (dump_cochange_db env p s).err = none) : s.err = none := by
  cases hs : s.err with
  | none => rfl
  | some e =>
    rw [dump_cochange_db_frozen env p (by simp [hs])] at h
    rw [hs] at h
    exact h

theorem err_none_add_deps_to_db {env : Env} {p : Project} {s : St}
    (h : (add_deps_to_db env p s).err = none) : s.err = none := by
  cases hs : s.err with
  | none => rfl
  | some e =>
    rw [add_deps_to_db_frozen env p (by simp [hs])] at h
    rw [hs] at h
    exact h

theorem err_none_run_stages {env : Env} {p : Project} {s : St}
    (h : (run_stages env p s).err = none) : s.err = none := by
  exact err_none_clone (err_none_checkout (err_none_dump_deps
    (err_none_dump_cochange_db (err_none_add_deps_to_db h))))

theorem err_none_runAll {env : Env} {ps : List Project} {s : St}
    (h : (runAll env ps s).err = none) : s.err = none := by
  induction ps generalizing s with
  | nil => exact h
  | cons p ps ih => exact err_none_run_stages (ih h)

/-! ### Branch equations for the five stages -/

theorem clone_skip {env : Env} {p : Project} {s : St} (h : s.err = none)
    (hg : pathExists s.fs (get_project_path p.name) = true) :
    clone env p s = { s with trace := s.trace ++ [.note .fetch p.name true] } := by
  simp [clone, h, hg]

theorem clone_go {env : Env} {p : Project} {s : St} (h : s.err = none)
    (hg : pathExists s.fs (get_project_path p.name) = false) :
    clone env p s =
      { s with
          fs := if env.created (cloneArgs p) none then touch s.fs (get_project_path p.name)
                else s.fs
          trace := s.trace ++ [.note .fetch p.name false, .call (cloneArgs p) none] } := by
  simp [clone, h, hg]

theorem checkout_go {env : Env} {p : Project} {s : St} (h : s.err = none)
    (hd : pathExists s.fs (get_project_path p.name) = true) :
    checkout env p s =
      { s with trace := s.trace ++ [.note .pin p.name false,
                 .call (checkoutArgs p.rev) (some (get_project_path p.name))] } := by
  simp [checkout, h, hd]

theorem checkout_missing {env : Env} {p : Project} {s : St} (h : s.err = none)
    (hd : pathExists s.fs (get_project_path p.name) = false) :
    checkout env p s =
      { s with trace := s.trace ++ [.note .pin p.name false]
               err := some (.osError (get_project_path p.name)) } := by
  simp [checkout, h, hd]

theorem dump_deps_skip {env : Env} {p : Project} {s : St} (h : s.err = none)
    (hg : pathExists s.fs (get_dep_path p.name) = true) :
    dump_deps env p s = { s with trace := s.trace ++ [.note .extractDeps p.name true] } := by
  simp [dump_deps, h, hg]

theorem dump_deps_go {env : Env} {p : Project} {s : St} (h : s.err = none)
    (hg : pathExists s.fs (get_dep_path p.name) = false)
    (hd : pathExists s.fs (get_project_path p.name) = true) :
    dump_deps env p s =
      { s with
          fs := if env.created (extractArgs p.name) (some (get_project_path p.name))
                then touch (touch s.fs ["deps"]) (get_dep_path p.name)
                else touch s.fs ["deps"]
          trace := s.trace ++ [.note .extractDeps p.name false, .mkdirp ["deps"],
                    .call (extractArgs p.name) (some (get_project_path p.name))] } := by
  have hd' : pathExists (touch s.fs ["deps"]) (get_project_path p.name) = true :=
    pathExists_mono _ hd
  simp [dump_deps, h, hg, hd']

theorem dump_deps_missing {env : Env} {p : Project} {s : St} (h : s.err = none)
    (hg : pathExists s.fs (get_dep_path p.name) = false)
    (hd : pathExists s.fs (get_project_path p.name) = false) :
    dump_deps env p s =
      { s with
          fs := touch s.fs ["deps"]
          trace := s.trace ++ [.note .extractDeps p.name false, .mkdirp ["deps"]]
          err := some (.osError (get_project_path p.name)) } := by
  have hd' : pathExists (touch s.fs ["deps"]) (get_project_path p.name) = false := by
    simp only [pathExists_touch, get_project_path, pathEq]
    simpa [get_project_path] using hd
  simp [dump_deps, h, hg, hd']

theorem dump_cochange_db_skip {env : Env} {p : Project} {s : St} (h : s.err = none)
    (hg : pathExists s.fs (get_db_path p.name) = true) :
    dump_cochange_db env p s =
      { s with trace := s.trace ++ [.note .initStore p.name true] } := by
  simp [dump_cochange_db, h, hg]

theorem dump_cochange_db_go {env : Env} {p : Project} {s : St} (h : s.err = none)
    (hg : pathExists s.fs (get_db_path p.name) = false) :
    dump_cochange_db env p s =
      { s with
          fs := if env.created (dumpArgs p) none then touch (touch s.fs ["dbs"]) (get_db_path p.name)
                else touch s.fs ["dbs"]
          trace := s.trace ++ [.note .initStore p.name false, .mkdirp ["dbs"],
                    .call (dumpArgs p) none] } := by
  simp [dump_cochange_db, h, hg]

theorem dereference_rev_ok {env : Env} {p : Project} {s : St} (h : s.err = none)
    (hd : pathExists s.fs (get_project_path p.name) = true)
    (hrc : env.rc (revListArgs p.rev) (some (get_project_path p.name)) = 0) :
    dereference_rev env p s =
      (some ((env.out (revListArgs p.rev) (some (get_project_path p.name))).trim),
       { s with trace := s.trace ++ [.call (revListArgs p.rev)
                  (some (get_project_path p.name))] }) := by
  simp [dereference_rev, h, hd, hrc]

theorem dereference_rev_fail {env : Env} {p : Project} {s : St} (h : s.err = none)
    (hd : pathExists s.fs (get_project_path p.name) = true)
    (hrc : env.rc (revListArgs p.rev) (some (get_project_path p.name)) ≠ 0) :
    dereference_rev env p s =
      (none,
       { s with
           trace := s.trace ++ [.call (revListArgs p.rev) (some (get_project_path p.name))]
           err := some (.calledProcessError (revListArgs p.rev)
                    (env.rc (revListArgs p.rev) (some (get_project_path p.name)))) }) := by
  simp [dereference_rev, h, hd, hrc]

theorem dereference_rev_missing {env : Env} {p : Project} {s : St} (h : s.err = none)
    (hd : pathExists s.fs (get_project_path p.name) = false) :
    dereference_rev env p s =
      (none, { s with err := some (.osError (get_project_path p.name)) }) := by
  simp [dereference_rev, h, hd]

theorem add_deps_to_db_ok {env : Env} {p : Project} {s : St} (h : s.err = none)
    (hd : pathExists s.fs (get_project_path p.name) = true)
    (hrc : env.rc (revListArgs p.rev) (some (get_project_path p.name)) = 0) :
    add_deps_to_db env p s =
      { s with
          fs := touch s.fs ["dbs"]
          trace := s.trace ++ [.note .mergeDeps p.name false, .mkdirp ["dbs"],
            .call (revListArgs p.rev) (some (get_project_path p.name)),
            .call (addDepsArgs p.name
              ((env.out (revListArgs p.rev) (some (get_project_path p.name))).trim)) none] } := by
  have hd' : pathExists (touch s.fs ["dbs"]) (get_project_path p.name) = true :=
    pathExists_mono _ hd
  simp [add_deps_to_db, dereference_rev, h, hd', hrc]

theorem add_deps_to_db_fail {env : Env} {p : Project} {s : St} (h : s.err = none)
    (hd : pathExists s.fs (get_project_path p.name) = true)
    (hrc : env.rc (revListArgs p.rev) (some (get_project_path p.name)) ≠ 0) :
    add_deps_to_db env p s =
      { s with
          fs := touch s.fs ["dbs"]
          trace := s.trace ++ [.note .mergeDeps p.name false, .mkdirp ["dbs"],
            .call (revListArgs p.rev) (some (get_project_path p.name))]
          err := some (.calledProcessError (revListArgs p.rev)
                   (env.rc (revListArgs p.rev) (some (get_project_path p.name)))) } := by
  have hd' : pathExists (touch s.fs ["dbs"]) (get_project_path p.name) = true :=
    pathExists_mono _ hd
  simp [add_deps_to_db, dereference_rev, h, hd', hrc]

theorem add_deps_to_db_missing {env : Env} {p : Project} {s : St} (h : s.err = none)
    (hd : pathExists s.fs (get_project_path p.name) = false) :
    add_deps_to_db env p s =
      { s with
          fs := touch s.fs ["dbs"]
          trace := s.trace ++ [.note .mergeDeps p.name false, .mkdirp ["dbs"]]
          err := some (.osError (get_project_path p.name)) } := by
  have hd' : pathExists (touch s.fs ["dbs"]) (get_project_path p.name) = false := by
    simp only [pathExists_touch, get_project_path, pathEq]
    simpa [get_project_path] using hd
  simp [add_deps_to_db, dereference_rev, h, hd']

/-! ### Per-stage success facts -/

theorem fsLe_touch2 (fs : FS) (a b : FsPath) : FsLe fs (touch (touch fs a) b) :=
  fsLe_trans (fsLe_touch fs a) (fsLe_touch (touch fs a) b)

theorem clone_ok {env : Env} {p : Project} {s : St} (h : s.err = none)
    (hcr : env.created (cloneArgs p) none = true) :
    (clone env p s).err = none ∧
    pathExists (clone env p s).fs (get_project_path p.name) = true ∧
    FsLe s.fs (clone env p s).fs := by
  by_cases hg : pathExists s.fs (get_project_path p.name) = true
  · rw [clone_skip h hg]
    exact ⟨h, hg, fsLe_refl _⟩
  · rw [clone_go h (by simpa using hg)]
    refine ⟨h, ?_, ?_⟩
    · simp [hcr, pathExists_touch, pathEq_refl]
    · simpa [hcr] using fsLe_touch s.fs (get_project_path p.name)

theorem checkout_ok {env : Env} {p : Project} {s : St} (h : s.err = none)
    (hd : pathExists s.fs (get_project_path p.name) = true) :
    (checkout env p s).err = none ∧ (checkout env p s).fs = s.fs := by
  rw [checkout_go h hd]
  exact ⟨h, rfl⟩

theorem dump_deps_ok {env : Env} {p : Project} {s : St} (h : s.err = none)
    (hd : pathExists s.fs (get_project_path p.name) = true) :
    (dump_deps env p s).err = none ∧ FsLe s.fs (dump_deps env p s).fs := by
  by_cases hg : pathExists s.fs (get_dep_path p.name) = true
  · rw [dump_deps_skip h hg]
    exact ⟨h, fsLe_refl _⟩
  · rw [dump_deps_go h (by simpa using hg) hd]
    refine ⟨h, ?_⟩
    cases hcre : env.created (extractArgs p.name) (some (get_project_path p.name))
    · simpa [hcre] using fsLe_touch s.fs ["deps"]
    · simpa [hcre] using fsLe_touch2 s.fs ["deps"] (get_dep_path p.name)

theorem dump_cochange_db_ok {env : Env} {p : Project} {s : St} (h : s.err = none) :
    (dump_cochange_db env p s).err = none ∧ FsLe s.fs (dump_cochange_db env p s).fs := by
  by_cases hg : pathExists s.fs (get_db_path p.name) = true
  · rw [dump_cochange_db_skip h hg]
    exact ⟨h, fsLe_refl _⟩
  · rw [dump_cochange_db_go h (by simpa using hg)]
    refine ⟨h, ?_⟩
    cases hcre : env.created (dumpArgs p) none
    · simpa [hcre] using fsLe_touch s.fs ["dbs"]
    · simpa [hcre] using fsLe_touch2 s.fs ["dbs"] (get_db_path p.name)

theorem add_deps_to_db_ok_facts {env : Env} {p : Project} {s : St} (h : s.err = none)
    (hd : pathExists s.fs (get_project_path p.name) = true)
    (hrc : env.rc (revListArgs p.rev) (some (get_project_path p.name)) = 0) :
    (add_deps_to_db env p s).err = none ∧ FsLe s.fs (add_deps_to_db env p s).fs := by
  rw [add_deps_to_db_ok h hd hrc]
  exact ⟨h, fsLe_touch s.fs ["dbs"]⟩

theorem run_stages_ok {env : Env} {p : Project} {s : St} (h : s.err = none)
    (hcr : env.created (cloneArgs p) none = true)
    (hrc : env.rc (revListArgs p.rev) (some (get_project_path p.name)) = 0) :
    (run_stages env p s).err = none ∧ FsLe s.fs (run_stages env p s).fs := by
  obtain ⟨h1, hd1, hle1⟩ := @clone_ok env p s h hcr
  obtain ⟨h2, hfs2⟩ := @checkout_ok env p _ h1 hd1
  have hd2 : pathExists (checkout env p (clone env p s)).fs (get_project_path p.name) = true := by
    rw [hfs2]; exact hd1
  obtain ⟨h3, hle3⟩ := @dump_deps_ok env p _ h2 hd2
  have hd3 : pathExists (dump_deps env p (checkout env p (clone env p s))).fs
      (get_project_path p.name) = true := hle3 _ hd2
  obtain ⟨h4, hle4⟩ := @dump_cochange_db_ok env p _ h3
  have hd4 : pathExists (dump_cochange_db env p (dump_deps env p (checkout env p
      (clone env p s)))).fs (get_project_path p.name) = true := hle4 _ hd3
  obtain ⟨h5, hle5⟩ := @add_deps_to_db_ok_facts env p _ h4 hd4 hrc
  refine ⟨h5, ?_⟩
  have hle2 : FsLe (clone env p s).fs (checkout env p (clone env p s)).fs := by
    rw [hfs2]; exact fsLe_refl _
  exact fsLe_trans hle1 (fsLe_trans hle2 (fsLe_trans hle3 (fsLe_trans hle4 hle5)))

/-! ### One stage report per stage -/

theorem notes_clone {env : Env} {p : Project} {s : St} (h : s.err = none) :
    stageNotes (clone env p s).trace = stageNotes s.trace ++ [(.fetch, p.name)] := by
  by_cases hg : pathExists s.fs (get_project_path p.name) = true
  · rw [clone_skip h hg]; simp
  · rw [clone_go h (by simpa using hg)]; simp

theorem notes_checkout {env : Env} {p : Project} {s : St} (h : s.err = none) :
    stageNotes (checkout env p s).trace = stageNotes s.trace ++ [(.pin, p.name)] := by
  by_cases hd : pathExists s.fs (get_project_path p.name) = true
  · rw [checkout_go h hd]; simp
  · rw [checkout_missing h (by simpa using hd)]; simp

theorem notes_dump_deps {env : Env} {p : Project} {s : St} (h : s.err = none) :
    stageNotes (dump_deps env p s).trace = stageNotes s.trace ++ [(.extractDeps, p.name)] := by
  by_cases hg : pathExists s.fs (get_dep_path p.name) = true
  · rw [dump_deps_skip h hg]; simp
  · by_cases hd : pathExists s.fs (get_project_path p.name) = true
    · rw [dump_deps_go h (by simpa using hg) hd]; simp
    · rw [dump_deps_missing h (by simpa using hg) (by simpa using hd)]; simp

theorem notes_dump_cochange_db {env : Env} {p : Project} {s : St} (h : s.err = none) :
    stageNotes (dump_cochange_db env p s).trace = stageNotes s.trace ++ [(.initStore, p.name)] := by
  by_cases hg : pathExists s.fs (get_db_path p.name) = true
  · rw [dump_cochange_db_skip h hg]; simp
  · rw [dump_cochange_db_go h (by simpa using hg)]; simp

theorem notes_add_deps_to_db {env : Env} {p : Project} {s : St} (h : s.err = none) :
    stageNotes (add_deps_to_db env p s).trace = stageNotes s.trace ++ [(.mergeDeps, p.name)] := by
  by_cases hd : pathExists s.fs (get_project_path p.name) = true
  · by_cases hrc : env.rc (revListArgs p.rev) (some (get_project_path p.name)) = 0
    · rw [add_deps_to_db_ok h hd hrc]; simp
    · rw [add_deps_to_db_fail h hd hrc]; simp
  · rw [add_deps_to_db_missing h (by simpa using hd)]; simp

theorem notes_run_stages {env : Env} {p : Project} {s : St}
    (hok : (run_stages env p s).err = none) :
    stageNotes (run_stages env p s).trace =
      stageNotes s.trace ++ stageList.map (fun st => (st, p.name)) := by
  have h4 : (dump_cochange_db env p (dump_deps env p (checkout env p
      (clone env p s)))).err = none := err_none_add_deps_to_db hok
  have h3 : (dump_deps env p (checkout env p (clone env p s))).err = none :=
    err_none_dump_cochange_db h4
  have h2 : (checkout env p (clone env p s)).err = none := err_none_dump_deps h3
  have h1 : (clone env p s).err = none := err_none_checkout h2
  have h0 : s.err = none := err_none_clone h1
  show stageNotes (add_deps_to_db env p (dump_cochange_db env p (dump_deps env p
    (checkout env p (clone env p s))))).trace = _
  rw [notes_add_deps_to_db h4, notes_dump_cochange_db h3, notes_dump_deps h2,
      notes_checkout h1, notes_clone h0]
  simp [stageList]

theorem notes_runAll {env : Env} {ps : List Project} {s : St}
    (hok : (runAll env ps s).err = none) :
    stageNotes (runAll env ps s).trace = stageNotes s.trace ++ noteSeq ps := by
  induction ps generalizing s with
  | nil => simp [runAll, noteSeq]
  | cons p ps ih =>
    have hok' : (runAll env ps (run_stages env p s)).err = none := hok
    have hstep : (run_stages env p s).err = none := err_none_runAll hok'
    show stageNotes (runAll env ps (run_stages env p s)).trace = _
    rw [ih hok', notes_run_stages hstep]
    simp [noteSeq, List.append_assoc]

/-! ### Registry loading -/

theorem loadRows_ok {rows : List (List String)} (h : ∀ r ∈ rows, 3 ≤ r.length) :
    loadRows rows = .ok (rows.map projOfRow) := by
  induction rows with
  | nil => rfl
  | cons r rs ih =>
    have hr := h r (by simp)
    cases r with
    | nil => simp at hr
    | cons a t =>
      cases t with
      | nil => simp at hr
      | cons b t2 =>
        cases t2 with
        | nil => simp at hr
        | cons c rest =>
          have ih' := ih (fun x hx => h x (by simp [hx]))
          simp [loadRows, ih', projOfRow, Except.map]

theorem loadRows_bad {pre : List (List String)} (r : List String) (post : List (List String))
    (hpre : ∀ x ∈ pre, 3 ≤ x.length) (hr : r.length < 3) :
    loadRows (pre ++ r :: post) = .error (.malformedRow r) := by
  induction pre with
  | nil =>
    cases r with
    | nil => rfl
    | cons a t =>
      cases t with
      | nil => rfl
      | cons b t2 =>
        cases t2 with
        | nil => rfl
        | cons c rest =>
          simp at hr
          omega
  | cons x pre ih =>
    have hx := hpre x (by simp)
    have ih' := ih (fun y hy => hpre y (by simp [hy]))
    cases x with
    | nil => simp at hx
    | cons a t =>
      cases t with
      | nil => simp at hx
      | cons b t2 =>
        cases t2 with
        | nil => simp at hx
        | cons c rest => simp [loadRows, ih', Except.map]

/-! ### The run never reads the exit status of clone, checkout, extract,
dump or add-deps: congruence in the environment -/

theorem clone_cong {env env' : Env}
    (hcre : ∀ a c, env.created a c = env'.created a c) :
    ∀ (p : Project) (s : St), clone env p s = clone env' p s := by
  intro p s
  simp only [clone, hcre]

theorem checkout_cong {env env' : Env} :
    ∀ (p : Project) (s : St), checkout env p s = checkout env' p s := by
  intro p s
  rfl

theorem dereference_rev_cong {env env' : Env}
    (hout : ∀ a c, env.out a c = env'.out a c)
    (hrc : ∀ rev c, env.rc (revListArgs rev) c = env'.rc (revListArgs rev) c) :
    ∀ (p : Project) (s : St), dereference_rev env p s = dereference_rev env' p s := by
  intro p s
  simp only [dereference_rev, hout, hrc]

theorem dump_deps_cong {env env' : Env}
    (hcre : ∀ a c, env.created a c = env'.created a c) :
    ∀ (p : Project) (s : St), dump_deps env p s = dump_deps env' p s := by
  intro p s
  simp only [dump_deps, hcre]

theorem dump_cochange_db_cong {env env' : Env}
    (hcre : ∀ a c, env.created a c = env'.created a c) :
    ∀ (p : Project) (s : St), dump_cochange_db env p s = dump_cochange_db env' p s := by
  intro p s
  simp only [dump_cochange_db, hcre]

theorem add_deps_to_db_cong {env env' : Env}
    (hout : ∀ a c, env.out a c = env'.out a c)
    (hrc : ∀ rev c, env.rc (revListArgs rev) c = env'.rc (revListArgs rev) c) :
    ∀ (p : Project) (s : St), add_deps_to_db env p s = add_deps_to_db env' p s := by
  intro p s
  simp only [add_deps_to_db, dereference_rev_cong hout hrc]

theorem run_stages_cong {env env' : Env}
    (hout : ∀ a c, env.out a c = env'.out a c)
    (hcre : ∀ a c, env.created a c = env'.created a c)
    (hrc : ∀ rev c, env.rc (revListArgs rev) c = env'.rc (revListArgs rev) c) :
    ∀ (p : Project) (s : St), run_stages env p s = run_stages env' p s := by
  intro p s
  simp only [run_stages, clone_cong hcre, @checkout_cong env env',
    dump_deps_cong hcre, dump_cochange_db_cong hcre, add_deps_to_db_cong hout hrc]

theorem runAll_cong {env env' : Env}
    (hout : ∀ a c, env.out a c = env'.out a c)
    (hcre : ∀ a c, env.created a c = env'.created a c)
    (hrc : ∀ rev c, env.rc (revListArgs rev) c = env'.rc (revListArgs rev) c) :
    ∀ (ps : List Project) (s : St), runAll env ps s = runAll env' ps s := by
  intro ps
  induction ps with
  | nil => intro s; rfl
  | cons p ps ih =>
    intro s
    show runAll env ps (run_stages env p s) = runAll env' ps (run_stages env' p s)
    rw [run_stages_cong hout hcre hrc]
    exact ih _

/-! ### Second-run behavior when every artifact already exists -/

theorem pathExists_touch_len2 {q : FsPath} (fs : FS) (d : String) (hq : q.length = 2) :
    pathExists (touch fs [d]) q = pathExists fs q := by
  rw [pathExists_touch, pathEq_of_length_ne (by simp [hq])]
  simp


/-! ### Branch equations on states written out field by field -/

theorem clone_skip' {env : Env} {p : Project} {fs : FS} {tr : List Event}
    (hg : pathExists fs (get_project_path p.name) = true) :
    clone env p ⟨fs, tr, none⟩ = ⟨fs, tr ++ [.note .fetch p.name true], none⟩ :=
  clone_skip rfl hg

theorem clone_go' {env : Env} {p : Project} {fs : FS} {tr : List Event}
    (hg : pathExists fs (get_project_path p.name) = false) :
    clone env p ⟨fs, tr, none⟩ =
      ⟨if env.created (cloneArgs p) none then touch fs (get_project_path p.name) else fs,
       tr ++ [.note .fetch p.name false, .call (cloneArgs p) none], none⟩ :=
  clone_go rfl hg

theorem checkout_go' {env : Env} {p : Project} {fs : FS} {tr : List Event}
    (hd : pathExists fs (get_project_path p.name) = true) :
    checkout env p ⟨fs, tr, none⟩ =
      ⟨fs, tr ++ [.note .pin p.name false,
        .call (checkoutArgs p.rev) (some (get_project_path p.name))], none⟩ :=
  checkout_go rfl hd

theorem checkout_missing' {env : Env} {p : Project} {fs : FS} {tr : List Event}
    (hd : pathExists fs (get_project_path p.name) = false) :
    checkout env p ⟨fs, tr, none⟩ =
      ⟨fs, tr ++ [.note .pin p.name false], some (.osError (get_project_path p.name))⟩ :=
  checkout_missing rfl hd

theorem dump_deps_skip' {env : Env} {p : Project} {fs : FS} {tr : List Event}
    (hg : pathExists fs (get_dep_path p.name) = true) :
    dump_deps env p ⟨fs, tr, none⟩ = ⟨fs, tr ++ [.note .extractDeps p.name true], none⟩ :=
  dump_deps_skip rfl hg

theorem dump_deps_go' {env : Env} {p : Project} {fs : FS} {tr : List Event}
    (hg : pathExists fs (get_dep_path p.name) = false)
    (hd : pathExists fs (get_project_path p.name) = true) :
    dump_deps env p ⟨fs, tr, none⟩ =
      ⟨if env.created (extractArgs p.name) (some (get_project_path p.name))
        then touch (touch fs ["deps"]) (get_dep_path p.name)
        else touch fs ["deps"],
       tr ++ [.note .extractDeps p.name false, .mkdirp ["deps"],
         .call (extractArgs p.name) (some (get_project_path p.name))], none⟩ :=
  dump_deps_go rfl hg hd

theorem dump_cochange_db_skip' {env : Env} {p : Project} {fs : FS} {tr : List Event}
    (hg : pathExists fs (get_db_path p.name) = true) :
    dump_cochange_db env p ⟨fs, tr, none⟩ =
      ⟨fs, tr ++ [.note .initStore p.name true], none⟩ :=
  dump_cochange_db_skip rfl hg

theorem dump_cochange_db_go' {env : Env} {p : Project} {fs : FS} {tr : List Event}
    (hg : pathExists fs (get_db_path p.name) = false) :
    dump_cochange_db env p ⟨fs, tr, none⟩ =
      ⟨if env.created (dumpArgs p) none
        then touch (touch fs ["dbs"]) (get_db_path p.name)
        else touch fs ["dbs"],
       tr ++ [.note .initStore p.name false, .mkdirp ["dbs"], .call (dumpArgs p) none], none⟩ :=
  dump_cochange_db_go rfl hg

theorem add_deps_to_db_ok' {env : Env} {p : Project} {fs : FS} {tr : List Event}
    (hd : pathExists fs (get_project_path p.name) = true)
    (hrc : env.rc (revListArgs p.rev) (some (get_project_path p.name)) = 0) :
    add_deps_to_db env p ⟨fs, tr, none⟩ =
      ⟨touch fs ["dbs"],
       tr ++ [.note .mergeDeps p.name false, .mkdirp ["dbs"],
         .call (revListArgs p.rev) (some (get_project_path p.name)),
         .call (addDepsArgs p.name ((env.out (revListArgs p.rev)
           (some (get_project_path p.name))).trim)) none], none⟩ :=
  add_deps_to_db_ok rfl hd hrc

theorem add_deps_to_db_fail' {env : Env} {p : Project} {fs : FS} {tr : List Event}
    (hd : pathExists fs (get_project_path p.name) = true)
    (hrc : env.rc (revListArgs p.rev) (some (get_project_path p.name)) ≠ 0) :
    add_deps_to_db env p ⟨fs, tr, none⟩ =
      ⟨touch fs ["dbs"],
       tr ++ [.note .mergeDeps p.name false, .mkdirp ["dbs"],
         .call (revListArgs p.rev) (some (get_project_path p.name))],
       some (.calledProcessError (revListArgs p.rev)
         (env.rc (revListArgs p.rev) (some (get_project_path p.name))))⟩ :=
  add_deps_to_db_fail rfl hd hrc

theorem add_deps_to_db_missing' {env : Env} {p : Project} {fs : FS} {tr : List Event}
    (hd : pathExists fs (get_project_path p.name) = false) :
    add_deps_to_db env p ⟨fs, tr, none⟩ =
      ⟨touch fs ["dbs"],
       tr ++ [.note .mergeDeps p.name false, .mkdirp ["dbs"]],
       some (.osError (get_project_path p.name))⟩ :=
  add_deps_to_db_missing rfl hd

/-! ### Second-run behavior when every artifact already exists -/

theorem run_stages_second {env : Env} {p : Project} {fs : FS} {tr : List Event}
    (ha1 : pathExists fs (get_project_path p.name) = true)
    (ha2 : pathExists fs (get_dep_path p.name) = true)
    (ha3 : pathExists fs (get_db_path p.name) = true)
    (hrc : env.rc (revListArgs p.rev) (some (get_project_path p.name)) = 0) :
    run_stages env p ⟨fs, tr, none⟩ =
      ⟨touch fs ["dbs"],
       tr ++ [.note .fetch p.name true, .note .pin p.name false,
         .call (checkoutArgs p.rev) (some (get_project_path p.name)),
         .note .extractDeps p.name true, .note .initStore p.name true,
         .note .mergeDeps p.name false, .mkdirp ["dbs"],
         .call (revListArgs p.rev) (some (get_project_path p.name)),
         .call (addDepsArgs p.name ((env.out (revListArgs p.rev)
           (some (get_project_path p.name))).trim)) none], none⟩ := by
  rw [run_stages, clone_skip' ha1, checkout_go' ha1, dump_deps_skip' ha2,
      dump_cochange_db_skip' ha3, add_deps_to_db_ok' ha1 hrc]
  simp

theorem c1_runAll {env : Env} {ps : List Project} {fs : FS} {tr : List Event}
    (hart : ∀ p ∈ ps, pathExists fs (get_project_path p.name) = true ∧
            pathExists fs (get_dep_path p.name) = true ∧
            pathExists fs (get_db_path p.name) = true)
    (hrc : ∀ p ∈ ps, env.rc (revListArgs p.rev) (some (get_project_path p.name)) = 0) :
    (runAll env ps ⟨fs, tr, none⟩).err = none ∧
    (runAll env ps ⟨fs, tr, none⟩).trace.countP isCloneCall = tr.countP isCloneCall ∧
    (runAll env ps ⟨fs, tr, none⟩).trace.countP isExtractCall = tr.countP isExtractCall ∧
    (runAll env ps ⟨fs, tr, none⟩).trace.countP isDumpCall = tr.countP isDumpCall ∧
    (runAll env ps ⟨fs, tr, none⟩).trace.countP isCheckoutCall
      = tr.countP isCheckoutCall + ps.length ∧
    (runAll env ps ⟨fs, tr, none⟩).trace.countP isAddDepsCall
      = tr.countP isAddDepsCall + ps.length ∧
    (∀ q : FsPath, q.length = 2 → pathExists (runAll env ps ⟨fs, tr, none⟩).fs q
      = pathExists fs q) := by
  induction ps generalizing fs tr with
  | nil =>
    exact ⟨rfl, rfl, rfl, rfl, by simp [runAll], by simp [runAll], fun q _ => rfl⟩
  | cons p ps ih =>
    obtain ⟨hp1, hp2, hp3⟩ := hart p (by simp)
    have hstep := @run_stages_second env p fs tr hp1 hp2 hp3 (hrc p (by simp))
    have hart' : ∀ x ∈ ps, pathExists (touch fs ["dbs"]) (get_project_path x.name) = true ∧
        pathExists (touch fs ["dbs"]) (get_dep_path x.name) = true ∧
        pathExists (touch fs ["dbs"]) (get_db_path x.name) = true := by
      intro x hx
      obtain ⟨hx1, hx2, hx3⟩ := hart x (by simp [hx])
      refine ⟨?_, ?_, ?_⟩
      · rw [pathExists_touch_len2 fs "dbs" (by simp [get_project_path])]
        exact hx1
      · rw [pathExists_touch_len2 fs "dbs" (by simp [get_dep_path])]
        exact hx2
      · rw [pathExists_touch_len2 fs "dbs" (by simp [get_db_path])]
        exact hx3
    have hrc' : ∀ x ∈ ps, env.rc (revListArgs x.rev) (some (get_project_path x.name)) = 0 :=
      fun x hx => hrc x (by simp [hx])
    obtain ⟨e1, e2, e3, e4, e5, e6, e7⟩ := ih hart' hrc'
    simp only [runAll, hstep]
    refine ⟨e1, ?_, ?_, ?_, ?_, ?_, ?_⟩
    · rw [e2]
      simp [List.countP_append]
    · rw [e3]
      simp [List.countP_append]
    · rw [e4]
      simp [List.countP_append]
    · rw [e5]
      simp [List.countP_append, List.countP_cons]
      omega
    · rw [e6]
      simp [List.countP_append, List.countP_cons]
      omega
    · intro q hq
      rw [e7 q hq]
      exact pathExists_touch_len2 fs "dbs" hq

/-! ### Small evaluation lemmas for pathEq -/

@[simp] theorem pathEq_nil_nil : pathEq [] [] = true := rfl

@[simp] theorem pathEq_nil_cons (b : String) (bs : FsPath) : pathEq [] (b :: bs) = false := rfl

@[simp] theorem pathEq_cons_nil (a : String) (as : FsPath) : pathEq (a :: as) [] = false := rfl

@[simp] theorem pathEq_cons_cons (a b : String) (as bs : FsPath) :
    pathEq (a :: as) (b :: bs) = (a == b && pathEq as bs) := rfl

/-! ### Whole-run success under a cooperating world -/

theorem c3_runAll {env : Env} {ps : List Project} {s : St} (h : s.err = none)
    (hcr : ∀ p ∈ ps, env.created (cloneArgs p) none = true)
    (hrc : ∀ p ∈ ps, env.rc (revListArgs p.rev) (some (get_project_path p.name)) = 0) :
    (runAll env ps s).err = none := by
  induction ps generalizing s with
  | nil => exact h
  | cons p ps ih =>
    obtain ⟨h1, _⟩ := run_stages_ok h (hcr p (by simp)) (hrc p (by simp))
    show (runAll env ps (run_stages env p s)).err = none
    exact ih h1 (fun x hx => hcr x (by simp [hx])) (fun x hx => hrc x (by simp [hx]))

/-! ## Claims -/

/-- Claim C5: the three path resolvers are pure total functions of the
project name and the fixed root constants: `working_copy_path(N)` is
`projects/N`, `db_path(N)` is `dbs/N.db`, and `dep_artifact_path(N)` is
`deps/N-deps-structure.json`; none of them depends on the revision or on
anything else, and repeated calls give identical paths. -/
theorem c5_path_resolvers_pure (n : String) :
    get_project_path n = ["projects", n] ∧
    get_db_path n = ["dbs", n ++ ".db"] ∧
    get_dep_path n = ["deps", n ++ "-deps-structure.json"] ∧
    pathStr (get_project_path n) = "projects/" ++ n ∧
    pathStr (get_db_path n) = "dbs/" ++ (n ++ ".db") ∧
    pathStr (get_dep_path n) = "deps/" ++ (n ++ "-deps-structure.json") := by
  refine ⟨rfl, rfl, rfl, ?_, ?_, ?_⟩ <;>
    simp [pathStr, get_project_path, get_db_path, get_dep_path]

/-- Claim C7: loading the registry fails with a FileNotFound-class error
when the tabular file is absent and with a MalformedRow-class error on the
first row with fewer than three fields; either way the error propagates,
no projects are returned, and the run ends with an empty trace and an
untouched filesystem before any stage executes. -/
theorem c7_registry_load_failures (env : Env) (fs0 : FS) :
    runMain env none fs0 = ⟨fs0, [], some .fileNotFound⟩ ∧
    (∀ (pre : List (List String)) (r : List String) (post : List (List String)),
      (∀ x ∈ pre, 3 ≤ x.length) → r.length < 3 →
      runMain env (some (pre ++ r :: post)) fs0 = ⟨fs0, [], some (.malformedRow r)⟩) := by
  constructor
  · rfl
  · intro pre r post hpre hr
    simp [runMain, load_projects, loadRows_bad r post hpre hr]

/-- Witness for C7 at a concrete registry: a well-formed first row followed
by a one-field row aborts the whole run before any stage executes. -/
theorem c7_registry_load_failures_witness :
    runMain envOk none [] = ⟨[], [], some .fileNotFound⟩ ∧
    runMain envOk (some ([["a", "u", "r"]] ++ ["x"] :: [])) []
      = ⟨[], [], some (.malformedRow ["x"])⟩ :=
  ⟨(c7_registry_load_failures envOk []).1,
   (c7_registry_load_failures envOk []).2 [["a", "u", "r"]] ["x"] [] (by decide) (by decide)⟩

/-- Claim C8: when the extract-dependencies stage actually runs (artifact
absent, working copy present), it invokes the extractor with the argument
list `extractArgs`, a pure function of the project name, whose fixed flags
select structural granularity, unix path naming, self-dependencies, and
leading-path stripping, directing output into the shared deps directory
under a name derived from the project name. -/
theorem c8_extractor_args_fixed (env : Env) (p : Project) (fs : FS) (tr : List Event)
    (hg : pathExists fs (get_dep_path p.name) = false)
    (hd : pathExists fs (get_project_path p.name) = true) :
    (dump_deps env p ⟨fs, tr, none⟩).trace
      = tr ++ [.note .extractDeps p.name false, .mkdirp ["deps"],
          .call (extractArgs p.name) (some (get_project_path p.name))] ∧
    "--granularity=structure" ∈ extractArgs p.name ∧
    "--namepattern=unix" ∈ extractArgs p.name ∧
    "--output-self-deps" ∈ extractArgs p.name ∧
    "--strip-leading-path" ∈ extractArgs p.name ∧
    "--dir=deps" ∈ extractArgs p.name ∧
    (p.name ++ "-deps") ∈ extractArgs p.name := by
  refine ⟨?_, ?_, ?_, ?_, ?_, ?_, ?_⟩
  · rw [dump_deps_go' hg hd]
  · simp [extractArgs]
  · simp [extractArgs]
  · simp [extractArgs]
  · simp [extractArgs]
  · simp [extractArgs]
  · simp [extractArgs]

/-- Witness for C8 at a concrete project: with the working copy present
and no artifact, the extractor invocation is recorded with its full fixed
argument list. -/
theorem c8_extractor_args_fixed_witness :
    (dump_deps envOk ⟨"a", "u", "r"⟩ ⟨[["projects", "a"]], [], none⟩).trace
      = [] ++ [.note .extractDeps "a" false, .mkdirp ["deps"],
          .call (extractArgs "a") (some (get_project_path "a"))] ∧
    "--granularity=structure" ∈ extractArgs "a" ∧
    "--namepattern=unix" ∈ extractArgs "a" ∧
    "--output-self-deps" ∈ extractArgs "a" ∧
    "--strip-leading-path" ∈ extractArgs "a" ∧
    "--dir=deps" ∈ extractArgs "a" ∧
    ("a" ++ "-deps") ∈ extractArgs "a" :=
  c8_extractor_args_fixed envOk ⟨"a", "u", "r"⟩ [["projects", "a"]] [] (by decide) (by decide)

/-- Claim C9: the merge-dependencies stage checks nothing about its inputs:
whenever revision resolution succeeds it creates the db parent directory
and invokes add-deps with the db path, the resolved commit id and the
dependency-artifact path, even when neither the co-change store nor the
dependency artifact exists. -/
theorem c9_merge_has_no_precondition (env : Env) (p : Project) (fs : FS) (tr : List Event)
    (hwc : pathExists fs (get_project_path p.name) = true)
    (hrc : env.rc (revListArgs p.rev) (some (get_project_path p.name)) = 0)
    (hdb : pathExists fs (get_db_path p.name) = false)
    (hdep : pathExists fs (get_dep_path p.name) = false) :
    add_deps_to_db env p ⟨fs, tr, none⟩ =
      ⟨touch fs ["dbs"],
       tr ++ [.note .mergeDeps p.name false, .mkdirp ["dbs"],
         .call (revListArgs p.rev) (some (get_project_path p.name)),
         .call (addDepsArgs p.name ((env.out (revListArgs p.rev)
           (some (get_project_path p.name))).trim)) none], none⟩ :=
  add_deps_to_db_ok' hwc hrc

/-- Witness for C9 at a concrete project whose db file and dependency
artifact are both absent. -/
theorem c9_merge_has_no_precondition_witness :
    add_deps_to_db envOk ⟨"a", "u", "r"⟩ ⟨[["projects", "a"]], [], none⟩ =
      ⟨touch [["projects", "a"]] ["dbs"],
       [] ++ [.note .mergeDeps "a" false, .mkdirp ["dbs"],
         .call (revListArgs "r") (some (get_project_path "a")),
         .call (addDepsArgs "a" ((envOk.out (revListArgs "r")
           (some (get_project_path "a"))).trim)) none], none⟩ :=
  c9_merge_has_no_precondition envOk ⟨"a", "u", "r"⟩ [["projects", "a"]] []
    (by decide) (by decide) (by decide) (by decide)

/-- Claim C4: with the working copy present, revision resolution returns
the stripped standard output of the rev-list subprocess on exit status 0;
on a non-zero exit status it records a CalledProcessError-class failure,
that failure is the merge stage's resulting error, and no add-deps
invocation is appended to the trace. -/
theorem c4_dereference_rev_contract (env : Env) (p : Project) (s : St)
    (h : s.err = none)
    (hd : pathExists s.fs (get_project_path p.name) = true) :
    (env.rc (revListArgs p.rev) (some (get_project_path p.name)) = 0 →
      (dereference_rev env p s).1
        = some ((env.out (revListArgs p.rev) (some (get_project_path p.name))).trim) ∧
      (dereference_rev env p s).2.err = none) ∧
    (env.rc (revListArgs p.rev) (some (get_project_path p.name)) ≠ 0 →
      (dereference_rev env p s).1 = none ∧
      (dereference_rev env p s).2.err
        = some (.calledProcessError (revListArgs p.rev)
            (env.rc (revListArgs p.rev) (some (get_project_path p.name)))) ∧
      (add_deps_to_db env p s).err
        = some (.calledProcessError (revListArgs p.rev)
            (env.rc (revListArgs p.rev) (some (get_project_path p.name)))) ∧
      (add_deps_to_db env p s).trace.countP isAddDepsCall
        = s.trace.countP isAddDepsCall) := by
  constructor
  · intro hrc
    rw [dereference_rev_ok h hd hrc]
    exact ⟨rfl, h⟩
  · intro hrc
    have hfail := dereference_rev_fail h hd hrc
    have hadd := add_deps_to_db_fail h hd hrc
    refine ⟨?_, ?_, ?_, ?_⟩
    · rw [hfail]
    · rw [hfail]
    · rw [hadd]
    · rw [hadd]
      simp [List.countP_append]

/-- Witness for C4 in a world whose rev-list exits 1: resolution yields no
commit, records the CalledProcessError, and the merge stage makes no
add-deps invocation. -/
theorem c4_dereference_rev_contract_witness :
    (dereference_rev envFail ⟨"a", "u", "r"⟩ ⟨[["projects", "a"]], [], none⟩).1 = none ∧
    (dereference_rev envFail ⟨"a", "u", "r"⟩ ⟨[["projects", "a"]], [], none⟩).2.err
      = some (.calledProcessError (revListArgs "r") 1) ∧
    (add_deps_to_db envFail ⟨"a", "u", "r"⟩ ⟨[["projects", "a"]], [], none⟩).err
      = some (.calledProcessError (revListArgs "r") 1) ∧
    (add_deps_to_db envFail ⟨"a", "u", "r"⟩ ⟨[["projects", "a"]], [], none⟩).trace.countP
      isAddDepsCall = List.countP isAddDepsCall [] :=
  (c4_dereference_rev_contract envFail ⟨"a", "u", "r"⟩ ⟨[["projects", "a"]], [], none⟩
    rfl (by decide)).2 (by decide)

/-- Claim C10: when the working copy is missing as the pin stage runs, the
checkout launch fails with an OS-level error (never a CalledProcessError
carrying an exit status), the same holds for the rev-list launch in the
merge stage, and the error freezes the rest of the project's stages and
every later project; when the working copy exists this error cannot
arise. -/
theorem c10_missing_workdir_aborts (env : Env) (p : Project) (s : St) (ps : List Project) :
    (s.err = none → pathExists s.fs (get_project_path p.name) = false →
      (checkout env p s).err = some (.osError (get_project_path p.name)) ∧
      (∀ rc : Int, (checkout env p s).err
        ≠ some (.calledProcessError (checkoutArgs p.rev) rc)) ∧
      (dereference_rev env p s).2.err = some (.osError (get_project_path p.name)) ∧
      add_deps_to_db env p (dump_cochange_db env p (dump_deps env p (checkout env p s)))
        = checkout env p s ∧
      runAll env ps (checkout env p s) = checkout env p s) ∧
    (s.err = none → pathExists s.fs (get_project_path p.name) = true →
      (checkout env p s).err = none ∧
      (dereference_rev env p s).2.err ≠ some (.osError (get_project_path p.name))) := by
  constructor
  · intro h hd
    have hc := @checkout_missing env p s h hd
    have herr : (checkout env p s).err = some (.osError (get_project_path p.name)) := by
      rw [hc]
    have hfrozen : (checkout env p s).err.isSome = true := by
      rw [herr]
      rfl
    refine ⟨herr, ?_, ?_, ?_, ?_⟩
    · intro rc hne
      rw [herr] at hne
      simp at hne
    · rw [dereference_rev_missing h hd]
    · rw [dump_deps_frozen env p hfrozen, dump_cochange_db_frozen env p hfrozen,
          add_deps_to_db_frozen env p hfrozen]
    · exact runAll_frozen env ps hfrozen
  · intro h hd
    constructor
    · rw [checkout_go h hd]
      exact h
    · by_cases hrc : env.rc (revListArgs p.rev) (some (get_project_path p.name)) = 0
      · rw [dereference_rev_ok h hd hrc]
        simp [h]
      · rw [dereference_rev_fail h hd hrc]
        simp

/-- Witness for C10: with an empty filesystem the pin stage's checkout
launch fails with the OS error and the whole remaining run is frozen. -/
theorem c10_missing_workdir_aborts_witness :
    (checkout envOk ⟨"a", "u", "r"⟩ ⟨[], [], none⟩).err
      = some (.osError (get_project_path "a")) ∧
    (dereference_rev envOk ⟨"a", "u", "r"⟩ ⟨[], [], none⟩).2.err
      = some (.osError (get_project_path "a")) ∧
    runAll envOk [⟨"b", "v", "w"⟩] (checkout envOk ⟨"a", "u", "r"⟩ ⟨[], [], none⟩)
      = checkout envOk ⟨"a", "u", "r"⟩ ⟨[], [], none⟩ := by
  have k := (c10_missing_workdir_aborts envOk ⟨"a", "u", "r"⟩ ⟨[], [], none⟩
    [⟨"b", "v", "w"⟩]).1 rfl (by decide)
  exact ⟨k.1, k.2.2.1, k.2.2.2.2⟩

/-- Claim C2: the registry yields exactly the file's rows in order,
duplicates preserved, and a completed run reports the five stages fetch,
pin, extract-dependencies, initialize-cochange-store, merge-dependencies
in that order, all five for one project before any stage of the next. -/
theorem c2_order_of_projects_and_stages (env : Env) (rows : List (List String)) (fs0 : FS)
    (hlen : ∀ r ∈ rows, 3 ≤ r.length) :
    load_projects (some rows) = .ok (rows.map projOfRow) ∧
    ((runMain env (some rows) fs0).err = none →
      stageNotes (runMain env (some rows) fs0).trace = noteSeq (rows.map projOfRow)) := by
  have hload : load_projects (some rows) = .ok (rows.map projOfRow) := loadRows_ok hlen
  refine ⟨hload, ?_⟩
  intro hok
  have hmain : runMain env (some rows) fs0
      = runAll env (rows.map projOfRow) ⟨fs0, [], none⟩ := by
    simp [runMain, hload]
  rw [hmain] at hok ⊢
  rw [notes_runAll hok]
  rfl

/-- Witness for C2: a registry with a duplicated row is processed row by
row, five stage reports per occurrence, in registry order. -/
theorem c2_order_of_projects_and_stages_witness :
    load_projects (some [["a", "u", "r"], ["a", "u", "r"]])
      = .ok ([["a", "u", "r"], ["a", "u", "r"]].map projOfRow) ∧
    stageNotes (runMain envOk (some [["a", "u", "r"], ["a", "u", "r"]]) []).trace
      = noteSeq ([["a", "u", "r"], ["a", "u", "r"]].map projOfRow) :=
  ⟨(c2_order_of_projects_and_stages envOk [["a", "u", "r"], ["a", "u", "r"]] []
      (by decide)).1,
   (c2_order_of_projects_and_stages envOk [["a", "u", "r"], ["a", "u", "r"]] []
      (by decide)).2 (by decide)⟩

/-- Claim C3: the exit statuses of the clone, checkout, extract, dump and
add-deps invocations are never read: two worlds that agree on captured
output, on tool side effects and on rev-list exit statuses produce
identical runs however those five exit statuses differ; and in a world
where clones create their working copies and rev-list succeeds, the run
completes every stage of every project whatever exit statuses the five
tools report. -/
theorem c3_nonzero_exit_not_propagated :
    (∀ (env env' : Env) (file : Option (List (List String))) (fs0 : FS),
      (∀ a c, env.out a c = env'.out a c) →
      (∀ a c, env.created a c = env'.created a c) →
      (∀ rev c, env.rc (revListArgs rev) c = env'.rc (revListArgs rev) c) →
      runMain env file fs0 = runMain env' file fs0) ∧
    (∀ (env : Env) (rows : List (List String)) (fs0 : FS),
      (∀ r ∈ rows, 3 ≤ r.length) →
      (∀ p ∈ rows.map projOfRow, env.created (cloneArgs p) none = true) →
      (∀ p ∈ rows.map projOfRow,
        env.rc (revListArgs p.rev) (some (get_project_path p.name)) = 0) →
      (runMain env (some rows) fs0).err = none ∧
      stageNotes (runMain env (some rows) fs0).trace = noteSeq (rows.map projOfRow)) := by
  constructor
  · intro env env' file fs0 hout hcre hrc
    cases file with
    | none => rfl
    | some rows =>
      simp only [runMain, load_projects]
      cases loadRows rows with
      | error e => rfl
      | ok ps => exact runAll_cong hout hcre hrc ps _
  · intro env rows fs0 hlen hcr hrc
    have hload : load_projects (some rows) = .ok (rows.map projOfRow) := loadRows_ok hlen
    have hmain : runMain env (some rows) fs0
        = runAll env (rows.map projOfRow) ⟨fs0, [], none⟩ := by
      simp [runMain, hload]
    rw [hmain]
    have hok : (runAll env (rows.map projOfRow) ⟨fs0, [], none⟩).err = none :=
      c3_runAll rfl hcr hrc
    refine ⟨hok, ?_⟩
    rw [notes_runAll hok]
    rfl

/-- Witness for C3 in a world where every tool exits 1 but clones still
create their directories and rev-list succeeds: the run still completes
all stages of all projects. -/
theorem c3_nonzero_exit_not_propagated_witness :
    (runMain (Env.mk (fun a _ => if a.take 2 == ["git", "rev-list"] then 0 else 1)
        (fun _ _ => "c0ffee\n") (fun _ _ => true)) (some [["a", "u", "r"]]) []).err = none ∧
    stageNotes (runMain (Env.mk (fun a _ => if a.take 2 == ["git", "rev-list"] then 0 else 1)
        (fun _ _ => "c0ffee\n") (fun _ _ => true)) (some [["a", "u", "r"]]) []).trace
      = noteSeq ([["a", "u", "r"]].map projOfRow) :=
  c3_nonzero_exit_not_propagated.2
    (Env.mk (fun a _ => if a.take 2 == ["git", "rev-list"] then 0 else 1)
      (fun _ _ => "c0ffee\n") (fun _ _ => true))
    [["a", "u", "r"]] [] (by decide) (by decide) (by decide)

/-- Claim C6: a registry of two rows sharing one project name but with
different revisions, run from empty roots in a world where every tool
succeeds and creates its artifact, invokes the extractor exactly once:
the second row finds the name-keyed artifact already present, so
idempotence is keyed by name, not by revision. -/
theorem c6_idempotence_by_name (env : Env) (n u1 r1 u2 r2 : String)
    (hrc : ∀ a c, env.rc a c = 0) (hcr : ∀ a c, env.created a c = true)
    (hne : r1 ≠ r2) :
    (runMain env (some [[n, u1, r1], [n, u2, r2]]) []).trace.countP isExtractCall = 1 ∧
    (runMain env (some [[n, u1, r1], [n, u2, r2]]) []).err = none := by
  have hload : load_projects (some [[n, u1, r1], [n, u2, r2]])
      = .ok [⟨n, u1, r1⟩, ⟨n, u2, r2⟩] := by
    simp [load_projects, loadRows, Except.map]
  constructor <;>
  · simp only [runMain, hload]
    simp [runAll, run_stages, clone, checkout, dump_deps, dump_cochange_db, add_deps_to_db,
      dereference_rev, hrc, hcr, touch, pathExists, get_project_path, get_db_path, get_dep_path,
      List.countP_append, List.countP_cons, pathEq_refl]

/-- Witness for C6 at a concrete two-row registry with distinct
revisions. -/
theorem c6_idempotence_by_name_witness :
    (runMain envOk (some [["n", "u1", "v1"], ["n", "u2", "v2"]]) []).trace.countP
      isExtractCall = 1 ∧
    (runMain envOk (some [["n", "u1", "v1"], ["n", "u2", "v2"]]) []).err = none :=
  c6_idempotence_by_name envOk "n" "u1" "v1" "u2" "v2"
    (fun _ _ => rfl) (fun _ _ => rfl) (by decide)

/-- Counterexample to claim C1 as stated: with a one-project registry and
every artifact already present, the second run still performs checkout
subprocess work (the pin stage always invokes `git checkout`), so the
claimed "zero clone/checkout/extract/dump subprocess work" is false. -/
theorem c1_counterexample_checkout_still_runs :
    ¬ ((runMain envOk (some [["a", "u", "r"]])
        [["projects", "a"], ["deps", "a-deps-structure.json"], ["dbs", "a.db"]]).trace.countP
        isCheckoutCall = 0) := by
  decide

/-- Claim C1 (amended): fetch performs no clone invocation iff the working
copy exists, extract-dependencies performs no extractor invocation iff the
dependency artifact exists (given the working copy exists so that the
launch succeeds), initialize-cochange-store performs no dump invocation
iff the db exists, and pin and merge-dependencies always execute their
stage bodies.  A second full run with all artifacts present and rev-list
succeeding performs zero clone, extract and dump subprocess work — but one
checkout and one add-deps invocation per project, since pin and
merge-dependencies still run — completes without error, and leaves the
set of artifact paths unchanged. -/
theorem c1_stage_guards_and_second_run :
    (∀ (env : Env) (p : Project) (s : St), s.err = none →
      ((clone env p s).trace.countP isCloneCall = s.trace.countP isCloneCall ↔
        pathExists s.fs (get_project_path p.name) = true)) ∧
    (∀ (env : Env) (p : Project) (s : St), s.err = none →
      pathExists s.fs (get_project_path p.name) = true →
      ((dump_deps env p s).trace.countP isExtractCall = s.trace.countP isExtractCall ↔
        pathExists s.fs (get_dep_path p.name) = true)) ∧
    (∀ (env : Env) (p : Project) (s : St), s.err = none →
      ((dump_cochange_db env p s).trace.countP isDumpCall = s.trace.countP isDumpCall ↔
        pathExists s.fs (get_db_path p.name) = true)) ∧
    (∀ (env : Env) (p : Project) (s : St), s.err = none →
      ∃ t, (checkout env p s).trace = s.trace ++ .note .pin p.name false :: t) ∧
    (∀ (env : Env) (p : Project) (s : St), s.err = none →
      ∃ t, (add_deps_to_db env p s).trace = s.trace ++ .note .mergeDeps p.name false :: t) ∧
    (∀ (env : Env) (rows : List (List String)) (fs0 : FS),
      (∀ r ∈ rows, 3 ≤ r.length) →
      (∀ p ∈ rows.map projOfRow,
        pathExists fs0 (get_project_path p.name) = true ∧
        pathExists fs0 (get_dep_path p.name) = true ∧
        pathExists fs0 (get_db_path p.name) = true) →
      (∀ p ∈ rows.map projOfRow,
        env.rc (revListArgs p.rev) (some (get_project_path p.name)) = 0) →
      (runMain env (some rows) fs0).err = none ∧
      (runMain env (some rows) fs0).trace.countP isCloneCall = 0 ∧
      (runMain env (some rows) fs0).trace.countP isExtractCall = 0 ∧
      (runMain env (some rows) fs0).trace.countP isDumpCall = 0 ∧
      (runMain env (some rows) fs0).trace.countP isCheckoutCall = rows.length ∧
      (runMain env (some rows) fs0).trace.countP isAddDepsCall = rows.length ∧
      (∀ q : FsPath, q.length = 2 →
        pathExists (runMain env (some rows) fs0).fs q = pathExists fs0 q)) := by
  refine ⟨?_, ?_, ?_, ?_, ?_, ?_⟩
  · intro env p s h
    by_cases hg : pathExists s.fs (get_project_path p.name) = true
    · rw [clone_skip h hg]
      simp [List.countP_append, List.countP_cons, hg]
    · have hg' : pathExists s.fs (get_project_path p.name) = false := by simpa using hg
      rw [clone_go h hg']
      simp [List.countP_append, List.countP_cons, hg']
  · intro env p s h hd
    by_cases hg : pathExists s.fs (get_dep_path p.name) = true
    · rw [dump_deps_skip h hg]
      simp [List.countP_append, List.countP_cons, hg]
    · have hg' : pathExists s.fs (get_dep_path p.name) = false := by simpa using hg
      rw [dump_deps_go h hg' hd]
      simp [List.countP_append, List.countP_cons, hg']
  · intro env p s h
    by_cases hg : pathExists s.fs (get_db_path p.name) = true
    · rw [dump_cochange_db_skip h hg]
      simp [List.countP_append, List.countP_cons, hg]
    · have hg' : pathExists s.fs (get_db_path p.name) = false := by simpa using hg
      rw [dump_cochange_db_go h hg']
      simp [List.countP_append, List.countP_cons, hg']
  · intro env p s h
    by_cases hd : pathExists s.fs (get_project_path p.name) = true
    · exact ⟨[.call (checkoutArgs p.rev) (some (get_project_path p.name))],
        by rw [checkout_go h hd]⟩
    · exact ⟨[], by rw [checkout_missing h (by simpa using hd)]⟩
  · intro env p s h
    by_cases hd : pathExists s.fs (get_project_path p.name) = true
    · by_cases hrc : env.rc (revListArgs p.rev) (some (get_project_path p.name)) = 0
      · exact ⟨[.mkdirp ["dbs"], .call (revListArgs p.rev) (some (get_project_path p.name)),
          .call (addDepsArgs p.name ((env.out (revListArgs p.rev)
            (some (get_project_path p.name))).trim)) none],
          by rw [add_deps_to_db_ok h hd hrc]⟩
      · exact ⟨[.mkdirp ["dbs"], .call (revListArgs p.rev) (some (get_project_path p.name))],
          by rw [add_deps_to_db_fail h hd hrc]⟩
    · exact ⟨[.mkdirp ["dbs"]], by rw [add_deps_to_db_missing h (by simpa using hd)]⟩
  · intro env rows fs0 hlen hart hrc
    have hload : load_projects (some rows) = .ok (rows.map projOfRow) := loadRows_ok hlen
    have hmain : runMain env (some rows) fs0
        = runAll env (rows.map projOfRow) ⟨fs0, [], none⟩ := by
      simp [runMain, hload]
    rw [hmain]
    obtain ⟨e1, e2, e3, e4, e5, e6, e7⟩ := @c1_runAll env (rows.map projOfRow) fs0 [] hart hrc
    refine ⟨e1, ?_, ?_, ?_, ?_, ?_, e7⟩
    · simpa using e2
    · simpa using e3
    · simpa using e4
    · rw [e5]
      simp
    · rw [e6]
      simp

/-- Witness for C1 (amended) at a concrete one-project registry with all
artifacts present: no clone, extract or dump work, one checkout and one
add-deps invocation, and the artifact paths unchanged. -/
theorem c1_stage_guards_and_second_run_witness :
    (runMain envOk (some [["a", "u", "r"]])
      [["projects", "a"], ["deps", "a-deps-structure.json"], ["dbs", "a.db"]]).err = none ∧
    (runMain envOk (some [["a", "u", "r"]])
      [["projects", "a"], ["deps", "a-deps-structure.json"],
       ["dbs", "a.db"]]).trace.countP isCloneCall = 0 ∧
    (runMain envOk (some [["a", "u", "r"]])
      [["projects", "a"], ["deps", "a-deps-structure.json"],
       ["dbs", "a.db"]]).trace.countP isExtractCall = 0 ∧
    (runMain envOk (some [["a", "u", "r"]])
      [["projects", "a"], ["deps", "a-deps-structure.json"],
       ["dbs", "a.db"]]).trace.countP isDumpCall = 0 ∧
    (runMain envOk (some [["a", "u", "r"]])
      [["projects", "a"], ["deps", "a-deps-structure.json"],
       ["dbs", "a.db"]]).trace.countP isCheckoutCall = 1 ∧
    (runMain envOk (some [["a", "u", "r"]])
      [["projects", "a"], ["deps", "a-deps-structure.json"],
       ["dbs", "a.db"]]).trace.countP isAddDepsCall = 1 ∧
    pathExists (runMain envOk (some [["a", "u", "r"]])
      [["projects", "a"], ["deps", "a-deps-structure.json"], ["dbs", "a.db"]]).fs
      ["projects", "a"]
      = pathExists [["projects", "a"], ["deps", "a-deps-structure.json"], ["dbs", "a.db"]]
          ["projects", "a"] := by
  have k := c1_stage_guards_and_second_run.2.2.2.2.2 envOk [["a", "u", "r"]]
    [["projects", "a"], ["deps", "a-deps-structure.json"], ["dbs", "a.db"]]
    (by decide) (by decide) (by decide)
  exact ⟨k.1, k.2.1, k.2.2.1, k.2.2.2.1, k.2.2.2.2.1, k.2.2.2.2.2.1,
    k.2.2.2.2.2.2 ["projects", "a"] (by decide)⟩
